import Mathlib

/-!
Verification of the graph-construction and activity-filtering core of the
compToolsForDSProject repository (files src/temp.py and src/src/utils.py).

Modelling conventions:
* pandas missing values (NaN) in id columns are modelled as `Option.none`;
  a present value x is `some x`.  Python's `!=` on possibly-NaN values is
  `pyNeq` (NaN compares unequal to everything, including itself).
* A pandas Series lookup built with set_index("Id")["OwnerUserId"] and read
  with .get is modelled as a first-match search over the indexed rows; for
  tables with unique ids (the only ones on which the Python code does not
  raise) this agrees with the source.
* The networkx Graph object is external library code.  Modelled from the
  spec: nodes form a dict from node key to an attribute dict; add_node on an
  existing key updates its attribute dict in place; edges are undirected,
  stored once per unordered pair, and re-adding an existing edge (in either
  orientation) leaves the edge set unchanged; add_edge inserts missing
  endpoints as nodes.
-/

/-- A pandas timestamp, to second precision (the only precision the format
string in the source exposes). -/
structure Timestamp where
  year : Nat
  month : Nat
  day : Nat
  hour : Nat
  minute : Nat
  second : Nat
deriving DecidableEq, Repr

/-- An attribute value stored on a node or an edge: the primitive kinds the
repository's data actually carries. -/
inductive Val where
  | vInt (n : Int)
  | vStr (s : String)
  | vTime (t : Timestamp)
  | vNan
deriving DecidableEq, Repr

/-- An attribute bag: a Python dict from attribute name to value. -/
def Attrs : Type := String → Option Val

def emptyAttrs : Attrs := fun _ => none

/-- Python dict.update semantics: keys of the second bag win. -/
def mergeAttrs (a b : Attrs) : Attrs := fun k =>
  match b k with
  | some v => some v
  | none => a k

/-- Modelled from the spec: the in-memory undirected attributed graph
(networkx.Graph) handed between the builders.  Nodes are a dict keyed by
node id; edges are stored once per unordered pair together with
their attribute dict. -/
structure Graph (V : Type) where
  nodes : V → Option Attrs
  edges : List (V × V × Attrs)

def freshGraph (V : Type) : Graph V := { nodes := fun _ => none, edges := [] }

/-- networkx G.add_node(u, **a): insert u if absent, else update
its attribute dict with a (new keys win). -/
def addNode {V : Type} [DecidableEq V] (g : Graph V) (u : V) (a : Attrs) :
    Graph V :=
  { nodes := fun w =>
      if w = u then some (mergeAttrs ((g.nodes u).getD emptyAttrs) a)
      else g.nodes w,
    edges := g.edges }

/-- Insert u as a bare node only when absent (what add_edge does to missing
endpoints). -/
def ensureNode {V : Type} [DecidableEq V] (g : Graph V) (u : V) : Graph V :=
  { nodes := fun w =>
      if w = u then some ((g.nodes u).getD emptyAttrs)
      else g.nodes w,
    edges := g.edges }

/-- Does the graph hold an undirected edge between u and v (stored in either
orientation)? -/
def hasEdgeB {V : Type} [DecidableEq V] (g : Graph V) (u v : V) : Bool :=
  g.edges.any fun e => (e.1 = u ∧ e.2.1 = v) ∨ (e.1 = v ∧ e.2.1 = u)

/-- networkx G.add_edge(u, v) with no attributes: missing endpoints become
nodes; a new pair is stored once; an existing pair (either orientation) is
left alone. -/
def addEdge {V : Type} [DecidableEq V] (g : Graph V) (u v : V) : Graph V :=
  let g1 := ensureNode (ensureNode g u) v
  if hasEdgeB g1 u v then g1
  else { g1 with edges := (u, v, emptyAttrs) :: g1.edges }

/-- Retrieve the stored edge between u and v, queried in either
orientation (networkx G.edges[u, v]). -/
def getEdge {V : Type} [DecidableEq V] (g : Graph V) (u v : V) :
    Option (V × V × Attrs) :=
  g.edges.find? fun e => (e.1 = u ∧ e.2.1 = v) ∨ (e.1 = v ∧ e.2.1 = u)

/-- Python != on possibly-NaN values (`none` is NaN): NaN is unequal to
everything, itself included. -/
def pyNeq (a b : Option Int) : Bool :=
  match a, b with
  | none, _ => true
  | _, none => true
  | some x, some y => x != y

/-- A row of the posts table; each id column may be NaN. -/
structure PostRow where
  Id : Option Int
  PostTypeId : Option Int
  OwnerUserId : Option Int
  ParentId : Option Int
deriving DecidableEq, Repr

/-- A row of the comments table. -/
structure CommentRow where
  UserId : Option Int
  PostId : Option Int
deriving DecidableEq, Repr

/-- A row of the users table: its Id plus the remaining columns. -/
structure UserRow where
  Id : Option Int
  extra : List (String × Val)
deriving DecidableEq, Repr

/-- posts_data[posts_data["PostTypeId"] == 1]: NaN type never equals 1. -/
def questionRows (posts : List PostRow) : List PostRow :=
  posts.filter fun r => r.PostTypeId = some 1

/-- posts_data[posts_data["PostTypeId"] == 2].dropna(subset=["ParentId",
"OwnerUserId"]). -/
def answerRows (posts : List PostRow) : List PostRow :=
  posts.filter fun r =>
    r.PostTypeId = some 2 ∧ r.ParentId.isSome ∧ r.OwnerUserId.isSome

/-- question_askers = questions.set_index("Id")["OwnerUserId"];
question_askers.get(q).  Returns none when q is not a question id, and the
question's owner column (itself possibly NaN) when it is.  First match; the
source raises on duplicate question ids, so theorems that use this lookup
assume the question ids are distinct. -/
def question_askers (posts : List PostRow) (q : Int) : Option (Option Int) :=
  ((questionRows posts).find? fun r => r.Id = some q).map fun r => r.OwnerUserId

/-- post_owners = posts_data.set_index("Id")["OwnerUserId"];
post_owners.get(p), over all posts.  Same uniqueness caveat. -/
def post_owners (posts : List PostRow) (p : Int) : Option (Option Int) :=
  (posts.find? fun r => r.Id = some p).map fun r => r.OwnerUserId

/-- comments_data.dropna(subset=["PostId", "UserId"]). -/
def commentRowsKept (comments : List CommentRow) : List CommentRow :=
  comments.filter fun c => c.PostId.isSome ∧ c.UserId.isSome

namespace Temp

/-- src/temp.py add_nodes_from_user_data: per row, to_dict, pop "Id", then
G.add_node(user_id, **attributes).  The node key is the user's raw Id value
(Val.vNan when the Id cell is NaN). -/
def idVal (i : Option Int) : Val :=
  match i with
  | some n => .vInt n
  | none => .vNan

/-- row.to_dict(): the full column dict of a user row, the "Id" column
included. -/
def rowDict (r : UserRow) : Attrs := fun k =>
  if k = "Id" then some (idVal r.Id)
  else (r.extra.find? fun p => p.1 = k).map fun p => p.2

/-- node_attributes after node_attributes.pop("Id"): the column dict with
the "Id" key removed. -/
def rowAttrs (r : UserRow) : Attrs := fun k =>
  if k = "Id" then none else rowDict r k

def add_nodes_from_user_data (G : Graph Val) (user_data : List UserRow) :
    Graph Val :=
  user_data.foldl (fun g r => addNode g (idVal r.Id) (rowAttrs r)) G

/-- One iteration of the answer loop of src/temp.py
add_edges_from_post_data: look up the asker of the answer's parent question
and add the edge when the asker exists and Python's != distinguishes it
from the answerer. -/
def postStep (posts_data : List PostRow) (g : Graph (Option Int))
    (r : PostRow) : Graph (Option Int) :=
  match r.ParentId with
  | none => g
  | some q =>
    match question_askers posts_data q with
    | none => g
    | some asker =>
      if pyNeq r.OwnerUserId asker then addEdge g r.OwnerUserId asker
      else g

/-- src/temp.py add_edges_from_post_data. -/
def add_edges_from_post_data (G : Graph (Option Int))
    (posts_data : List PostRow) : Graph (Option Int) :=
  (answerRows posts_data).foldl (postStep posts_data) G

/-- One iteration of the comment loop of src/temp.py
add_edges_from_comment_data: look up the owner of the commented-on post
among all given posts and add the edge when the owner exists and differs
from the commenter. -/
def commentStep (posts_data : List PostRow) (g : Graph (Option Int))
    (c : CommentRow) : Graph (Option Int) :=
  match c.PostId with
  | none => g
  | some p =>
    match post_owners posts_data p with
    | none => g
    | some owner =>
      if pyNeq c.UserId owner then addEdge g c.UserId owner
      else g

/-- src/temp.py add_edges_from_comment_data. -/
def add_edges_from_comment_data (G : Graph (Option Int))
    (comments_data : List CommentRow) (posts_data : List PostRow) :
    Graph (Option Int) :=
  (commentRowsKept comments_data).foldl (commentStep posts_data) G

end Temp

namespace Utils

/-- src/src/utils.py add_nodes_from_user_data: bare nodes, one per value of
the Id column. -/
def add_nodes_from_user_data (G : Graph Val) (user_data : List UserRow) :
    Graph Val :=
  user_data.foldl (fun g r => addNode g (Temp.idVal r.Id) emptyAttrs) G

/-- One iteration of the answer loop of src/src/utils.py
add_edges_from_post_data: identical to the temp.py step except that the
answerer != asker guard is absent. -/
def postStep (posts_data : List PostRow) (g : Graph (Option Int))
    (r : PostRow) : Graph (Option Int) :=
  match r.ParentId with
  | none => g
  | some q =>
    match question_askers posts_data q with
    | none => g
    | some asker => addEdge g r.OwnerUserId asker

/-- src/src/utils.py add_edges_from_post_data. -/
def add_edges_from_post_data (G : Graph (Option Int))
    (posts_data : List PostRow) : Graph (Option Int) :=
  (answerRows posts_data).foldl (postStep posts_data) G

/-- One iteration of the comment loop of src/src/utils.py
add_edges_from_comment_data: identical to the temp.py step except that the
commenter != owner guard is absent. -/
def commentStep (posts_data : List PostRow) (g : Graph (Option Int))
    (c : CommentRow) : Graph (Option Int) :=
  match c.PostId with
  | none => g
  | some p =>
    match post_owners posts_data p with
    | none => g
    | some owner => addEdge g c.UserId owner

/-- src/src/utils.py add_edges_from_comment_data. -/
def add_edges_from_comment_data (G : Graph (Option Int))
    (comments_data : List CommentRow) (posts_data : List PostRow) :
    Graph (Option Int) :=
  (commentRowsKept comments_data).foldl (commentStep posts_data) G

end Utils

/-- posts_data["OwnerUserId"].value_counts()[u]: how many posts user u
owns (value_counts ignores NaN). -/
def posts_count (posts : List PostRow) (u : Int) : Nat :=
  (posts.filter fun p => p.OwnerUserId = some u).length

/-- comments_data["UserId"].value_counts()[u]. -/
def comments_count (comments : List CommentRow) (u : Int) : Nat :=
  (comments.filter fun c => c.UserId = some u).length

/-- The index of posts_count.add(comments_count, fill_value=0): every user
id that occurs as a post owner or a comment author. -/
def combined_index (posts : List PostRow) (comments : List CommentRow) :
    List Int :=
  posts.filterMap (fun p => p.OwnerUserId) ++
    comments.filterMap (fun c => c.UserId)

/-- The combined count of user u (0 off the index). -/
def combined_count (posts : List PostRow) (comments : List CommentRow)
    (u : Int) : Nat :=
  posts_count posts u + comments_count comments u

/-- active_users = combined_count[combined_count >= threshold].index:
membership test for user id u. -/
def active_users (posts : List PostRow) (comments : List CommentRow)
    (threshold : Int) (u : Int) : Bool :=
  (combined_index posts comments).contains u &&
    decide (threshold ≤ (combined_count posts comments u : Int))

/-- src/temp.py preprocess_user_data:
user_data[user_data["Id"].isin(active_users)].  A NaN Id is never in the
index (the index holds no NaN). -/
def preprocess_user_data (user_data : List UserRow) (posts_data : List PostRow)
    (comments_data : List CommentRow) (threshold : Int) : List UserRow :=
  user_data.filter fun r =>
    match r.Id with
    | none => false
    | some x => active_users posts_data comments_data threshold x

/-- src/temp.py preprocess_post_data:
posts_data[posts_data["OwnerUserId"].isin(active_user_data["Id"])].
pandas isin matches NaN to NaN, which Option equality models exactly. -/
def preprocess_post_data (posts_data : List PostRow)
    (active_user_data : List UserRow) : List PostRow :=
  posts_data.filter fun p =>
    (active_user_data.map fun r => r.Id).contains p.OwnerUserId

/-- src/temp.py preprocess_comment_data: keep comments whose UserId is an
active user's Id, then of those the ones whose PostId is an active post's
Id. -/
def preprocess_comment_data (comments_data : List CommentRow)
    (active_user_data : List UserRow) (active_posts_data : List PostRow) :
    List CommentRow :=
  ((comments_data.filter fun c =>
      (active_user_data.map fun r => r.Id).contains c.UserId).filter fun c =>
    (active_posts_data.map fun p => p.Id).contains c.PostId)

/-- Left-pad the decimal form of n with zeros to width w. -/
def padZero (w : Nat) (n : Nat) : String :=
  let s := toString n
  String.mk (List.replicate (w - s.length) '0') ++ s

/-- value.strftime("%Y-%m-%d %H:%M:%S"): zero-padded, 24-hour clock, no
timezone. -/
def strftimeYmdHMS (t : Timestamp) : String :=
  padZero 4 t.year ++ "-" ++ padZero 2 t.month ++ "-" ++ padZero 2 t.day ++
    " " ++ padZero 2 t.hour ++ ":" ++ padZero 2 t.minute ++ ":" ++
    padZero 2 t.second

/-- One attribute value after conversion: a pd.Timestamp becomes its
formatted string, everything else is untouched. -/
def convertVal (v : Val) : Val :=
  match v with
  | .vTime t => .vStr (strftimeYmdHMS t)
  | x => x

/-- One attribute dict after conversion. -/
def convertAttrs (a : Attrs) : Attrs := fun k => (a k).map convertVal

/-- src/temp.py convert_timestamps_to_strings: rewrite every node and
edge attribute dict in place. -/
def convert_timestamps_to_strings {V : Type} (G : Graph V) : Graph V :=
  { nodes := fun v => (G.nodes v).map convertAttrs,
    edges := G.edges.map fun e => (e.1, e.2.1, convertAttrs e.2.2) }

/-- Attribute value of node v at key k, as the external consumer reads it. -/
def nodeAttr {V : Type} (G : Graph V) (v : V) (k : String) : Option Val :=
  (G.nodes v).bind fun a => a k

/-- Attribute value of the undirected edge between u and v at key k. -/
def edgeAttr {V : Type} [DecidableEq V] (G : Graph V) (u v : V) (k : String) :
    Option Val :=
  (getEdge G u v).bind fun e => e.2.2 k

/-- Specification predicate: row r of the posts table makes
add_edges_from_post_data insert the undirected pair (a, b): its ParentId is
present and resolves through the question lookup to an asker that Python's
!= distinguishes from the answerer, and (a, b) is that pair in some
orientation. -/
def postEdgeTrigger (posts : List PostRow) (r : PostRow) (a b : Option Int) :
    Prop :=
  ∃ q, r.ParentId = some q ∧ ∃ asker, question_askers posts q = some asker ∧
    pyNeq r.OwnerUserId asker = true ∧
    ((a = r.OwnerUserId ∧ b = asker) ∨ (a = asker ∧ b = r.OwnerUserId))

/-- Specification predicate: comment row c makes add_edges_from_comment_data
insert the undirected pair (a, b). -/
def commentEdgeTrigger (posts : List PostRow) (c : CommentRow)
    (a b : Option Int) : Prop :=
  ∃ p, c.PostId = some p ∧ ∃ owner, post_owners posts p = some owner ∧
    pyNeq c.UserId owner = true ∧
    ((a = c.UserId ∧ b = owner) ∨ (a = owner ∧ b = c.UserId))

theorem mem_combined_index_iff (posts : List PostRow)
    (comments : List CommentRow) (x : Int) :
    x ∈ combined_index posts comments ↔
      0 < combined_count posts comments x := by
  simp only [combined_index, combined_count, posts_count, comments_count,
    List.mem_append, List.mem_filterMap]
  constructor
  · rintro (⟨p, hp, hx⟩ | ⟨c, hc, hx⟩)
    · have hm : p ∈ posts.filter fun p => p.OwnerUserId = some x :=
        List.mem_filter.2 ⟨hp, by simp [hx]⟩
      have := List.length_pos.2 (List.ne_nil_of_mem hm)
      omega
    · have hm : c ∈ comments.filter fun c => c.UserId = some x :=
        List.mem_filter.2 ⟨hc, by simp [hx]⟩
      have := List.length_pos.2 (List.ne_nil_of_mem hm)
      omega
  · intro h
    by_cases hA : 0 < (posts.filter fun p => p.OwnerUserId = some x).length
    · obtain ⟨p, hp⟩ := List.exists_mem_of_length_pos hA
      obtain ⟨hp1, hp2⟩ := List.mem_filter.1 hp
      exact Or.inl ⟨p, hp1, by simpa using hp2⟩
    · have hB : 0 < (comments.filter fun c => c.UserId = some x).length := by
        omega
      obtain ⟨c, hc⟩ := List.exists_mem_of_length_pos hB
      obtain ⟨hc1, hc2⟩ := List.mem_filter.1 hc
      exact Or.inr ⟨c, hc1, by simpa using hc2⟩

theorem mem_preprocess_user_data_iff (user_data : List UserRow)
    (posts_data : List PostRow) (comments_data : List CommentRow)
    (t : Int) (r : UserRow) :
    r ∈ preprocess_user_data user_data posts_data comments_data t ↔
      r ∈ user_data ∧ ∃ x, r.Id = some x ∧
        x ∈ combined_index posts_data comments_data ∧
        t ≤ (combined_count posts_data comments_data x : Int) := by
  simp only [preprocess_user_data, List.mem_filter]
  constructor
  · rintro ⟨hr, hpred⟩
    refine ⟨hr, ?_⟩
    cases hId : r.Id with
    | none => rw [hId] at hpred; exact absurd hpred (by simp)
    | some x =>
      rw [hId] at hpred
      simp only [active_users, Bool.and_eq_true, decide_eq_true_eq] at hpred
      refine ⟨x, rfl, ?_, hpred.2⟩
      have := hpred.1
      simpa [List.contains, List.elem_iff] using this
  · rintro ⟨hr, x, hId, hmem, hth⟩
    refine ⟨hr, ?_⟩
    rw [hId]
    simp only [active_users, Bool.and_eq_true, decide_eq_true_eq]
    exact ⟨by simpa [List.contains, List.elem_iff] using hmem, hth⟩

/-- Claim C2: a user row survives preprocess_user_data exactly when its Id
appears in the combined post+comment count index with combined count at
least the threshold; in particular a user with zero posts and zero comments
is excluded even at threshold 0. -/
theorem claim_C2_user_activity_filter (user_data : List UserRow)
    (posts_data : List PostRow) (comments_data : List CommentRow)
    (threshold : Int) :
    (∀ r, r ∈ preprocess_user_data user_data posts_data comments_data
        threshold ↔
      r ∈ user_data ∧ ∃ x, r.Id = some x ∧
        x ∈ combined_index posts_data comments_data ∧
        threshold ≤ (combined_count posts_data comments_data x : Int)) ∧
    (∀ r x, r.Id = some x →
      combined_count posts_data comments_data x = 0 →
      r ∉ preprocess_user_data user_data posts_data comments_data 0) := by
  refine ⟨fun r => mem_preprocess_user_data_iff _ _ _ _ r, ?_⟩
  intro r x hId hzero hmem
  obtain ⟨-, x', hId', hmem', -⟩ :=
    (mem_preprocess_user_data_iff user_data posts_data comments_data 0 r).1
      hmem
  have hx : x' = x := by rw [hId] at hId'; exact (Option.some_inj.1 hId').symm
  subst hx
  have := (mem_combined_index_iff posts_data comments_data x').1 hmem'
  omega

/-- Instance of claim C2 at a concrete input: with one post by user 1 and no
comments, threshold 1 keeps exactly the users whose Id is 1, and an inactive
user is dropped even at threshold 0. -/
theorem claim_C2_user_activity_filter_witness :
    ((⟨some 5, []⟩ : UserRow).Id = some 5) ∧
    combined_count [⟨some 10, some 1, some 1, none⟩] [] 5 = 0 ∧
    (⟨some 5, []⟩ : UserRow) ∉
      preprocess_user_data [⟨some 1, []⟩, ⟨some 5, []⟩]
        [⟨some 10, some 1, some 1, none⟩] [] 0 := by
  refine ⟨rfl, by decide, ?_⟩
  exact (claim_C2_user_activity_filter [⟨some 1, []⟩, ⟨some 5, []⟩]
    [⟨some 10, some 1, some 1, none⟩] [] 0).2 ⟨some 5, []⟩ 5 rfl (by decide)

/-- Claim C3: raising the activity threshold shrinks the returned user set:
for thresholds t1 < t2 every row returned at t2 is returned at t1. -/
theorem claim_C3_threshold_monotone (user_data : List UserRow)
    (posts_data : List PostRow) (comments_data : List CommentRow)
    (t1 t2 : Int) (h : t1 < t2) :
    ∀ r, r ∈ preprocess_user_data user_data posts_data comments_data t2 →
      r ∈ preprocess_user_data user_data posts_data comments_data t1 := by
  intro r hr
  obtain ⟨hru, x, hId, hmem, hth⟩ :=
    (mem_preprocess_user_data_iff _ _ _ _ _).1 hr
  exact (mem_preprocess_user_data_iff _ _ _ _ _).2
    ⟨hru, x, hId, hmem, le_trans (le_of_lt h) hth⟩

/-- Instance of claim C3 at a concrete input: the threshold-1 user set is
contained in the threshold-0 user set. -/
theorem claim_C3_threshold_monotone_witness :
    ((0 : Int) < 1) ∧
    (∀ r, r ∈ preprocess_user_data [⟨some 1, []⟩]
        [⟨some 10, some 1, some 1, none⟩] [] 1 →
      r ∈ preprocess_user_data [⟨some 1, []⟩]
        [⟨some 10, some 1, some 1, none⟩] [] 0) :=
  ⟨by decide, claim_C3_threshold_monotone [⟨some 1, []⟩]
    [⟨some 10, some 1, some 1, none⟩] [] 0 1 (by decide)⟩

/-- Claim C4: every post kept by preprocess_post_data is owned by one of the
given active users, and every comment kept by preprocess_comment_data has
both its author among the active users' Ids and its post among the active
posts' Ids. -/
theorem claim_C4_filter_consistency (posts_data : List PostRow)
    (active_user_data : List UserRow) (comments_data : List CommentRow)
    (active_posts_data : List PostRow) :
    (∀ p ∈ preprocess_post_data posts_data active_user_data,
      p.OwnerUserId ∈ active_user_data.map fun r => r.Id) ∧
    (∀ c ∈ preprocess_comment_data comments_data active_user_data
        active_posts_data,
      (c.UserId ∈ active_user_data.map fun r => r.Id) ∧
      (c.PostId ∈ active_posts_data.map fun p => p.Id)) := by
  constructor
  · intro p hp
    obtain ⟨-, hc⟩ := List.mem_filter.1 hp
    simpa [List.contains, List.elem_iff] using hc
  · intro c hc
    obtain ⟨hc1, hc2⟩ := List.mem_filter.1 hc
    obtain ⟨-, hc3⟩ := List.mem_filter.1 hc1
    exact ⟨by simpa [List.contains, List.elem_iff] using hc3,
      by simpa [List.contains, List.elem_iff] using hc2⟩

/-- Instance of claim C4 at a concrete input: the kept post is owned by the
active user 1, and the kept comment references active user 2 and active post
10. -/
theorem claim_C4_filter_consistency_witness :
    (⟨some 10, some 1, some 1, none⟩ : PostRow) ∈
      preprocess_post_data [⟨some 10, some 1, some 1, none⟩,
        ⟨some 11, some 1, some 9, none⟩] [⟨some 1, []⟩, ⟨some 2, []⟩] ∧
    (⟨some 10, some 1, some 1, none⟩ : PostRow).OwnerUserId ∈
      ([⟨some 1, []⟩, ⟨some 2, []⟩] : List UserRow).map fun r => r.Id := by
  refine ⟨by decide, ?_⟩
  exact (claim_C4_filter_consistency [⟨some 10, some 1, some 1, none⟩,
    ⟨some 11, some 1, some 9, none⟩] [⟨some 1, []⟩, ⟨some 2, []⟩] [] []).1
    ⟨some 10, some 1, some 1, none⟩ (by decide)

theorem hasEdgeB_symm {V : Type} [DecidableEq V] (g : Graph V) (u v : V) :
    hasEdgeB g u v = hasEdgeB g v u := by
  unfold hasEdgeB
  congr 1
  funext e
  exact decide_eq_decide.2 or_comm

theorem hasEdgeB_ensureNode {V : Type} [DecidableEq V] (g : Graph V)
    (w u v : V) : hasEdgeB (ensureNode g w) u v = hasEdgeB g u v := rfl

theorem hasEdgeB_addEdge_iff {V : Type} [DecidableEq V] (g : Graph V)
    (u v a b : V) :
    hasEdgeB (addEdge g u v) a b = true ↔
      hasEdgeB g a b = true ∨ (a = u ∧ b = v) ∨ (a = v ∧ b = u) := by
  unfold addEdge
  by_cases h : hasEdgeB (ensureNode (ensureNode g u) v) u v = true
  · rw [if_pos h]
    rw [hasEdgeB_ensureNode, hasEdgeB_ensureNode] at h ⊢
    constructor
    · exact Or.inl
    · rintro (h1 | ⟨rfl, rfl⟩ | ⟨rfl, rfl⟩)
      · exact h1
      · exact h
      · rw [hasEdgeB_symm]; exact h
  · rw [if_neg h]
    show (hasEdgeB { nodes := _, edges := (u, v, emptyAttrs) :: g.edges }
      a b = true) ↔ _
    unfold hasEdgeB
    simp only [List.any_cons, Bool.or_eq_true, decide_eq_true_eq]
    constructor
    · rintro ((⟨h1, h2⟩ | ⟨h1, h2⟩) | hrest)
      · exact Or.inr (Or.inl ⟨h1.symm, h2.symm⟩)
      · exact Or.inr (Or.inr ⟨h2.symm, h1.symm⟩)
      · exact Or.inl hrest
    · rintro (hrest | ⟨rfl, rfl⟩ | ⟨rfl, rfl⟩)
      · exact Or.inr hrest
      · exact Or.inl (Or.inl ⟨rfl, rfl⟩)
      · exact Or.inl (Or.inr ⟨rfl, rfl⟩)

theorem hasEdgeB_postStep {posts : List PostRow} (g : Graph (Option Int))
    (r : PostRow) (a b : Option Int) :
    hasEdgeB (Temp.postStep posts g r) a b = true ↔
      hasEdgeB g a b = true ∨ postEdgeTrigger posts r a b := by
  unfold Temp.postStep postEdgeTrigger
  cases hP : r.ParentId with
  | none => simp
  | some q =>
    dsimp only
    cases hA : question_askers posts q with
    | none => simp [hA]
    | some asker =>
      dsimp only
      by_cases hne : pyNeq r.OwnerUserId asker = true
      · rw [if_pos hne, hasEdgeB_addEdge_iff]
        simp [hA, hne]
      · rw [if_neg hne]
        constructor
        · exact fun h => Or.inl h
        · rintro (h | ⟨q', hq', asker', ha', hne', -⟩)
          · exact h
          · obtain rfl : q = q' := Option.some_inj.1 hq'
            rw [hA] at ha'
            obtain rfl : asker = asker' := Option.some_inj.1 ha'
            exact absurd hne' hne

theorem hasEdgeB_commentStep {posts : List PostRow} (g : Graph (Option Int))
    (c : CommentRow) (a b : Option Int) :
    hasEdgeB (Temp.commentStep posts g c) a b = true ↔
      hasEdgeB g a b = true ∨ commentEdgeTrigger posts c a b := by
  unfold Temp.commentStep commentEdgeTrigger
  cases hP : c.PostId with
  | none => simp
  | some p =>
    dsimp only
    cases hA : post_owners posts p with
    | none => simp [hA]
    | some owner =>
      dsimp only
      by_cases hne : pyNeq c.UserId owner = true
      · rw [if_pos hne, hasEdgeB_addEdge_iff]
        simp [hA, hne]
      · rw [if_neg hne]
        constructor
        · exact fun h => Or.inl h
        · rintro (h | ⟨p', hp', owner', ho', hne', -⟩)
          · exact h
          · obtain rfl : p = p' := Option.some_inj.1 hp'
            rw [hA] at ho'
            obtain rfl : owner = owner' := Option.some_inj.1 ho'
            exact absurd hne' hne

theorem post_fold_spec (posts : List PostRow) (l : List PostRow)
    (G : Graph (Option Int)) (a b : Option Int) :
    hasEdgeB (l.foldl (Temp.postStep posts) G) a b = true ↔
      hasEdgeB G a b = true ∨ ∃ r ∈ l, postEdgeTrigger posts r a b := by
  induction l generalizing G with
  | nil => simp
  | cons r l ih =>
    rw [List.foldl_cons, ih]
    constructor
    · rintro (h | ⟨r', hr', ht⟩)
      · rcases (hasEdgeB_postStep G r a b).1 h with h' | ht
        · exact Or.inl h'
        · exact Or.inr ⟨r, List.mem_cons_self r l, ht⟩
      · exact Or.inr ⟨r', List.mem_cons_of_mem r hr', ht⟩
    · rintro (h | ⟨r', hr', ht⟩)
      · exact Or.inl ((hasEdgeB_postStep G r a b).2 (Or.inl h))
      · rcases List.mem_cons.1 hr' with heq | hmem
        · subst heq
          exact Or.inl ((hasEdgeB_postStep G r' a b).2 (Or.inr ht))
        · exact Or.inr ⟨r', hmem, ht⟩

theorem comment_fold_spec (posts : List PostRow) (l : List CommentRow)
    (G : Graph (Option Int)) (a b : Option Int) :
    hasEdgeB (l.foldl (Temp.commentStep posts) G) a b = true ↔
      hasEdgeB G a b = true ∨ ∃ c ∈ l, commentEdgeTrigger posts c a b := by
  induction l generalizing G with
  | nil => simp
  | cons c l ih =>
    rw [List.foldl_cons, ih]
    constructor
    · rintro (h | ⟨c', hc', ht⟩)
      · rcases (hasEdgeB_commentStep G c a b).1 h with h' | ht
        · exact Or.inl h'
        · exact Or.inr ⟨c, List.mem_cons_self c l, ht⟩
      · exact Or.inr ⟨c', List.mem_cons_of_mem c hc', ht⟩
    · rintro (h | ⟨c', hc', ht⟩)
      · exact Or.inl ((hasEdgeB_commentStep G c a b).2 (Or.inl h))
      · rcases List.mem_cons.1 hc' with heq | hmem
        · subst heq
          exact Or.inl ((hasEdgeB_commentStep G c' a b).2 (Or.inr ht))
        · exact Or.inr ⟨c', hmem, ht⟩

theorem pyNeq_some_left {x : Int} {w : Option Int}
    (h : pyNeq (some x) w = true) : some x ≠ w := by
  cases w with
  | none => simp
  | some y =>
    intro hc
    obtain rfl : x = y := Option.some_inj.1 hc
    simp [pyNeq] at h

/-- Claim C1 counterexample: the src/src/utils.py variant of
add_edges_from_post_data, run on a question owned by user 1 and an answer to
it also owned by user 1, constructs the self-loop edge (1, 1) in an
initially empty graph, so not every edge constructed by the edge builders
has distinct endpoints. -/
theorem claim_C1_counterexample :
    (freshGraph (Option Int)).edges = [] ∧
    hasEdgeB
      (Utils.add_edges_from_post_data (freshGraph (Option Int))
        [⟨some 10, some 1, some 1, none⟩, ⟨some 11, some 2, some 1, some 10⟩])
      (some 1) (some 1) = true :=
  ⟨rfl, by decide⟩

/-- Claim C1 (amended): every edge constructed by the src/temp.py edge
builders joins two distinct endpoints; the src/src/utils.py variants, which
lack the self-loop guard, are not covered. -/
theorem claim_C1_no_self_loops (G : Graph (Option Int))
    (posts posts2 : List PostRow) (comments : List CommentRow)
    (a b : Option Int) :
    (hasEdgeB (Temp.add_edges_from_post_data G posts) a b = true →
      hasEdgeB G a b = true ∨ a ≠ b) ∧
    (hasEdgeB (Temp.add_edges_from_comment_data G comments posts2) a b =
        true →
      hasEdgeB G a b = true ∨ a ≠ b) := by
  constructor
  · intro h
    unfold Temp.add_edges_from_post_data at h
    rcases (post_fold_spec posts _ G a b).1 h with h' | ⟨r, hr, ht⟩
    · exact Or.inl h'
    · right
      obtain ⟨hmem, hcond⟩ := List.mem_filter.1 hr
      simp only [answerRows, decide_eq_true_eq] at hcond
      obtain ⟨o, ho⟩ := Option.isSome_iff_exists.1 hcond.2.2
      obtain ⟨q, hq, asker, hA, hne, hpair⟩ := ht
      rw [ho] at hne hpair
      have hne2 : (some o : Option Int) ≠ asker := pyNeq_some_left hne
      rcases hpair with ⟨rfl, rfl⟩ | ⟨rfl, rfl⟩
      · exact hne2
      · exact hne2.symm
  · intro h
    unfold Temp.add_edges_from_comment_data at h
    rcases (comment_fold_spec posts2 _ G a b).1 h with h' | ⟨c, hc, ht⟩
    · exact Or.inl h'
    · right
      obtain ⟨hmem, hcond⟩ := List.mem_filter.1 hc
      simp only [commentRowsKept, decide_eq_true_eq] at hcond
      obtain ⟨o, ho⟩ := Option.isSome_iff_exists.1 hcond.2
      obtain ⟨p, hp, owner, hO, hne, hpair⟩ := ht
      rw [ho] at hne hpair
      have hne2 : (some o : Option Int) ≠ owner := pyNeq_some_left hne
      rcases hpair with ⟨rfl, rfl⟩ | ⟨rfl, rfl⟩
      · exact hne2
      · exact hne2.symm

/-- Instance of the amended claim C1: with an answer by user 2 to user 1's
question, the produced edge relation refutes any self-loop on (2, 2). -/
theorem claim_C1_no_self_loops_witness :
    hasEdgeB
      (Temp.add_edges_from_post_data (freshGraph (Option Int))
        [⟨some 10, some 1, some 1, none⟩, ⟨some 11, some 2, some 2, some 10⟩])
      (some 2) (some 1) = true ∧
    (hasEdgeB (freshGraph (Option Int)) (some 2) (some 1) = true ∨
      (some 2 : Option Int) ≠ some 1) := by
  refine ⟨by decide, ?_⟩
  exact (claim_C1_no_self_loops (freshGraph (Option Int))
    [⟨some 10, some 1, some 1, none⟩, ⟨some 11, some 2, some 2, some 10⟩]
    [] [] (some 2) (some 1)).1 (by decide)

/-- Claim C5: add_edges_from_post_data (src/temp.py) inserts the undirected
pair (answerer, asker) exactly for the posts of type answer with ParentId
and OwnerUserId present whose ParentId resolves through the question lookup
to an asker different from the answerer; all other rows contribute nothing.
Stated for posts tables whose question ids are distinct, the only tables on
which the pandas lookup the source builds yields scalars. -/
theorem claim_C5_answer_edges (G : Graph (Option Int))
    (posts : List PostRow)
    (_huniq : ((questionRows posts).filterMap fun r => r.Id).Nodup)
    (a b : Option Int) :
    hasEdgeB (Temp.add_edges_from_post_data G posts) a b = true ↔
      hasEdgeB G a b = true ∨ ∃ r ∈ posts, r.PostTypeId = some 2 ∧
        r.OwnerUserId.isSome ∧ postEdgeTrigger posts r a b := by
  unfold Temp.add_edges_from_post_data
  rw [post_fold_spec]
  constructor
  · rintro (h | ⟨r, hr, ht⟩)
    · exact Or.inl h
    · obtain ⟨hmem, hcond⟩ := List.mem_filter.1 hr
      simp only [decide_eq_true_eq] at hcond
      exact Or.inr ⟨r, hmem, hcond.1, hcond.2.2, ht⟩
  · rintro (h | ⟨r, hr, h2, hOwn, ht⟩)
    · exact Or.inl h
    · refine Or.inr ⟨r, ?_, ht⟩
      obtain ⟨q, hq, -⟩ := ht
      have hps : r.ParentId.isSome := by rw [hq]; rfl
      exact List.mem_filter.2 ⟨hr, by simp [h2, hps, hOwn]⟩

/-- Instance of claim C5: user 2 answering user 1's question produces
exactly the edge (2, 1) over an empty graph. -/
theorem claim_C5_answer_edges_witness :
    (((questionRows [⟨some 10, some 1, some 1, none⟩,
        ⟨some 11, some 2, some 2, some 10⟩]).filterMap fun r => r.Id).Nodup) ∧
    (hasEdgeB
        (Temp.add_edges_from_post_data (freshGraph (Option Int))
          [⟨some 10, some 1, some 1, none⟩,
            ⟨some 11, some 2, some 2, some 10⟩]) (some 2) (some 1) = true ↔
      hasEdgeB (freshGraph (Option Int)) (some 2) (some 1) = true ∨
        ∃ r ∈ [⟨some 10, some 1, some 1, none⟩,
          (⟨some 11, some 2, some 2, some 10⟩ : PostRow)],
          r.PostTypeId = some 2 ∧ r.OwnerUserId.isSome ∧
          postEdgeTrigger [⟨some 10, some 1, some 1, none⟩,
            ⟨some 11, some 2, some 2, some 10⟩] r (some 2) (some 1)) :=
  ⟨by decide, claim_C5_answer_edges (freshGraph (Option Int))
    [⟨some 10, some 1, some 1, none⟩, ⟨some 11, some 2, some 2, some 10⟩]
    (by decide) (some 2) (some 1)⟩

/-- Claim C6: add_edges_from_comment_data (src/temp.py), after dropping
comments missing PostId or UserId, inserts the undirected pair
(commenter, owner) exactly for the comments whose PostId resolves through
the post-owner lookup built from all given posts to an owner different from
the commenter.  Stated for posts tables with distinct ids, the only tables
on which the pandas lookup the source builds yields scalars. -/
theorem claim_C6_comment_edges (G : Graph (Option Int))
    (comments : List CommentRow) (posts : List PostRow)
    (_huniq : (posts.filterMap fun r => r.Id).Nodup)
    (a b : Option Int) :
    hasEdgeB (Temp.add_edges_from_comment_data G comments posts) a b =
        true ↔
      hasEdgeB G a b = true ∨ ∃ c ∈ comments, c.UserId.isSome ∧
        commentEdgeTrigger posts c a b := by
  unfold Temp.add_edges_from_comment_data
  rw [comment_fold_spec]
  constructor
  · rintro (h | ⟨c, hc, ht⟩)
    · exact Or.inl h
    · obtain ⟨hmem, hcond⟩ := List.mem_filter.1 hc
      simp only [decide_eq_true_eq] at hcond
      exact Or.inr ⟨c, hmem, hcond.2, ht⟩
  · rintro (h | ⟨c, hc, hUid, ht⟩)
    · exact Or.inl h
    · refine Or.inr ⟨c, ?_, ht⟩
      obtain ⟨p, hp, -⟩ := ht
      have hps : c.PostId.isSome := by rw [hp]; rfl
      exact List.mem_filter.2 ⟨hc, by simp [hps, hUid]⟩

/-- Instance of claim C6: user 3 commenting on user 1's post produces
exactly the edge (3, 1) over an empty graph. -/
theorem claim_C6_comment_edges_witness :
    (([⟨some 10, some 1, some 1, none⟩] :
        List PostRow).filterMap fun r => r.Id).Nodup ∧
    (hasEdgeB
        (Temp.add_edges_from_comment_data (freshGraph (Option Int))
          [⟨some 3, some 10⟩] [⟨some 10, some 1, some 1, none⟩])
        (some 3) (some 1) = true ↔
      hasEdgeB (freshGraph (Option Int)) (some 3) (some 1) = true ∨
        ∃ c ∈ [(⟨some 3, some 10⟩ : CommentRow)], c.UserId.isSome ∧
          commentEdgeTrigger [⟨some 10, some 1, some 1, none⟩] c
            (some 3) (some 1)) :=
  ⟨by decide, claim_C6_comment_edges (freshGraph (Option Int))
    [⟨some 3, some 10⟩] [⟨some 10, some 1, some 1, none⟩]
    (by decide) (some 3) (some 1)⟩

/-- Claim C9: edges are undirected and deduplicated.  Re-inserting a pair
that already has an edge, in either orientation, leaves the edge set
unchanged; querying the edge relation or the stored edge in either
orientation gives the same answer.  spec-modelled networkx Graph
semantics. -/
theorem claim_C9_undirected_simple {V : Type} [DecidableEq V]
    (g : Graph V) (u v : V) :
    (hasEdgeB g u v = true → (addEdge g u v).edges = g.edges) ∧
    (hasEdgeB g u v = hasEdgeB g v u) ∧
    (getEdge g u v = getEdge g v u) := by
  refine ⟨?_, hasEdgeB_symm g u v, ?_⟩
  · intro h
    unfold addEdge
    have h1 : hasEdgeB (ensureNode (ensureNode g u) v) u v = true := h
    rw [if_pos h1]
    rfl
  · unfold getEdge
    congr 1
    funext e
    exact decide_eq_decide.2 or_comm

/-- Instance of claim C9: after inserting edge (1, 2), re-inserting it as
(2, 1) leaves the edge list unchanged. -/
theorem claim_C9_undirected_simple_witness :
    hasEdgeB (addEdge (freshGraph (Option Int)) (some 1) (some 2))
      (some 2) (some 1) = true ∧
    (addEdge (addEdge (freshGraph (Option Int)) (some 1) (some 2))
        (some 2) (some 1)).edges =
      (addEdge (freshGraph (Option Int)) (some 1) (some 2)).edges :=
  ⟨by decide,
    (claim_C9_undirected_simple
      (addEdge (freshGraph (Option Int)) (some 1) (some 2))
      (some 2) (some 1)).1 (by decide)⟩

theorem foldl_congr_on_mem {α β : Type} {f g : β → α → β} {l : List α}
    (h : ∀ x ∈ l, ∀ acc, f acc x = g acc x) :
    ∀ b : β, l.foldl f b = l.foldl g b := by
  induction l with
  | nil => intro b; rfl
  | cons x l ih =>
    intro b
    rw [List.foldl_cons, List.foldl_cons, h x (List.mem_cons_self x l) b]
    exact ih (fun y hy acc => h y (List.mem_cons_of_mem x hy) acc) _

/-- Claim C10: wherever the self-loop guard cannot fire, the two variants of
each edge builder coincide.  If no kept answer resolves to an asker equal to
its answerer, add_edges_from_post_data of src/temp.py and of
src/src/utils.py build the same edge list from the same start graph;
likewise for add_edges_from_comment_data when no kept comment resolves to an
owner equal to its commenter. -/
theorem claim_C10_variants_agree (G : Graph (Option Int))
    (posts posts2 : List PostRow) (comments : List CommentRow) :
    ((∀ r ∈ answerRows posts, ∀ q asker, r.ParentId = some q →
        question_askers posts q = some asker →
        pyNeq r.OwnerUserId asker = true) →
      (Temp.add_edges_from_post_data G posts).edges =
        (Utils.add_edges_from_post_data G posts).edges) ∧
    ((∀ c ∈ commentRowsKept comments, ∀ p owner, c.PostId = some p →
        post_owners posts2 p = some owner →
        pyNeq c.UserId owner = true) →
      (Temp.add_edges_from_comment_data G comments posts2).edges =
        (Utils.add_edges_from_comment_data G comments posts2).edges) := by
  constructor
  · intro h
    unfold Temp.add_edges_from_post_data Utils.add_edges_from_post_data
    refine congrArg Graph.edges (foldl_congr_on_mem ?_ G)
    intro r hr acc
    unfold Temp.postStep Utils.postStep
    cases hP : r.ParentId with
    | none => rfl
    | some q =>
      dsimp only
      cases hA : question_askers posts q with
      | none => rfl
      | some asker =>
        dsimp only
        rw [if_pos (h r hr q asker hP hA)]
  · intro h
    unfold Temp.add_edges_from_comment_data Utils.add_edges_from_comment_data
    refine congrArg Graph.edges (foldl_congr_on_mem ?_ G)
    intro c hc acc
    unfold Temp.commentStep Utils.commentStep
    cases hP : c.PostId with
    | none => rfl
    | some p =>
      dsimp only
      cases hA : post_owners posts2 p with
      | none => rfl
      | some owner =>
        dsimp only
        rw [if_pos (h c hc p owner hP hA)]

/-- Instance of claim C10: on a question by user 1 answered by user 2, and a
comment by user 3 on user 1's post, the two variants build the same edge
lists. -/
theorem claim_C10_variants_agree_witness :
    (Temp.add_edges_from_post_data (freshGraph (Option Int))
        [⟨some 10, some 1, some 1, none⟩,
          ⟨some 11, some 2, some 2, some 10⟩]).edges =
      (Utils.add_edges_from_post_data (freshGraph (Option Int))
        [⟨some 10, some 1, some 1, none⟩,
          ⟨some 11, some 2, some 2, some 10⟩]).edges ∧
    (Temp.add_edges_from_comment_data (freshGraph (Option Int))
        [⟨some 3, some 10⟩] [⟨some 10, some 1, some 1, none⟩]).edges =
      (Utils.add_edges_from_comment_data (freshGraph (Option Int))
        [⟨some 3, some 10⟩] [⟨some 10, some 1, some 1, none⟩]).edges := by
  constructor
  · refine (claim_C10_variants_agree (freshGraph (Option Int))
      [⟨some 10, some 1, some 1, none⟩, ⟨some 11, some 2, some 2, some 10⟩]
      [] []).1 ?_
    intro r hr q asker hP hA
    have he : answerRows [⟨some 10, some 1, some 1, none⟩,
        ⟨some 11, some 2, some 2, some 10⟩] =
        [⟨some 11, some 2, some 2, some 10⟩] := rfl
    rw [he, List.mem_singleton] at hr
    subst hr
    obtain rfl : (10 : Int) = q := Option.some_inj.1 hP
    have hA2 : question_askers [⟨some 10, some 1, some 1, none⟩,
        ⟨some 11, some 2, some 2, some 10⟩] 10 = some (some 1) := rfl
    rw [hA2] at hA
    obtain rfl : (some 1 : Option Int) = asker := Option.some_inj.1 hA
    decide
  · refine (claim_C10_variants_agree (freshGraph (Option Int)) []
      [⟨some 10, some 1, some 1, none⟩] [⟨some 3, some 10⟩]).2 ?_
    intro c hc p owner hP hO
    have he : commentRowsKept [⟨some 3, some 10⟩] = [⟨some 3, some 10⟩] := rfl
    rw [he, List.mem_singleton] at hc
    subst hc
    obtain rfl : (10 : Int) = p := Option.some_inj.1 hP
    have hO2 : post_owners [⟨some 10, some 1, some 1, none⟩] 10 =
        some (some 1) := rfl
    rw [hO2] at hO
    obtain rfl : (some 1 : Option Int) = owner := Option.some_inj.1 hO
    decide

theorem isSome_addNode {V : Type} [DecidableEq V] (g : Graph V) (u : V)
    (a : Attrs) (v : V) :
    ((addNode g u a).nodes v).isSome = true ↔
      v = u ∨ (g.nodes v).isSome = true := by
  unfold addNode
  by_cases h : v = u
  · simp [h]
  · simp [h]

theorem foldl_addNode_isSome {V α : Type} [DecidableEq V] (key : α → V)
    (payload : α → Attrs) (l : List α) (G : Graph V) (v : V) :
    ((l.foldl (fun g x => addNode g (key x) (payload x)) G).nodes v).isSome =
        true ↔
      (G.nodes v).isSome = true ∨ v ∈ l.map key := by
  induction l generalizing G with
  | nil => simp
  | cons x l ih =>
    rw [List.foldl_cons, ih, isSome_addNode, List.map_cons, List.mem_cons]
    tauto

/-- Claim C7: both node builders insert exactly one node per user row, keyed
by the row's Id value; being a dict keyed by node id, the node store can
never hold two nodes for one identifier.  In the attributed (src/temp.py)
variant the attribute bag passed for a row is the row's column dict with the
"Id" key absent and every other column retained, and re-adding an existing
identifier overwrites its attributes in place, leaving every other node
untouched. -/
theorem claim_C7_node_insertion (G : Graph Val) (rows : List UserRow)
    (v : Val) (g : Graph Val) (u : Val) (a : Attrs) (r : UserRow)
    (k : String) (w : Val) :
    (((Temp.add_nodes_from_user_data G rows).nodes v).isSome = true ↔
      (G.nodes v).isSome = true ∨ v ∈ rows.map fun r0 => Temp.idVal r0.Id) ∧
    (((Utils.add_nodes_from_user_data G rows).nodes v).isSome = true ↔
      (G.nodes v).isSome = true ∨ v ∈ rows.map fun r0 => Temp.idVal r0.Id) ∧
    (Temp.rowAttrs r "Id" = none) ∧
    (k ≠ "Id" → Temp.rowAttrs r k = Temp.rowDict r k) ∧
    ((addNode g u a).nodes u =
      some (mergeAttrs ((g.nodes u).getD emptyAttrs) a)) ∧
    (w ≠ u → (addNode g u a).nodes w = g.nodes w) := by
  refine ⟨?_, ?_, ?_, ?_, ?_, ?_⟩
  · exact foldl_addNode_isSome (fun r0 => Temp.idVal r0.Id) Temp.rowAttrs
      rows G v
  · exact foldl_addNode_isSome (fun r0 => Temp.idVal r0.Id)
      (fun _ => emptyAttrs) rows G v
  · simp [Temp.rowAttrs]
  · intro hk
    simp [Temp.rowAttrs, hk]
  · unfold addNode
    simp
  · intro hw
    unfold addNode
    simp [hw]

/-- Instance of claim C7: the "Age" column survives the pop of "Id", and
adding node 1 leaves the absent node 2 absent. -/
theorem claim_C7_node_insertion_witness :
    Temp.rowAttrs ⟨some 1, [("Age", .vInt 30)]⟩ "Age" =
      Temp.rowDict ⟨some 1, [("Age", .vInt 30)]⟩ "Age" ∧
    (addNode (freshGraph Val) (.vInt 1) emptyAttrs).nodes (.vInt 2) =
      (freshGraph Val).nodes (.vInt 2) := by
  constructor
  · exact (claim_C7_node_insertion (freshGraph Val) [] (.vInt 1)
      (freshGraph Val) (.vInt 1) emptyAttrs ⟨some 1, [("Age", .vInt 30)]⟩
      "Age" (.vInt 2)).2.2.2.1 (by decide)
  · exact (claim_C7_node_insertion (freshGraph Val) [] (.vInt 1)
      (freshGraph Val) (.vInt 1) emptyAttrs ⟨some 1, [("Age", .vInt 30)]⟩
      "Age" (.vInt 2)).2.2.2.2.2 (by decide)

theorem convertVal_idem (x : Val) : convertVal (convertVal x) = convertVal x := by
  cases x <;> rfl

theorem convertVal_of_not_time (x : Val) (h : ∀ t, x ≠ Val.vTime t) :
    convertVal x = x := by
  cases x with
  | vTime t => exact absurd rfl (h t)
  | vInt n => rfl
  | vStr s => rfl
  | vNan => rfl

theorem convertAttrs_idem (a : Attrs) :
    convertAttrs (convertAttrs a) = convertAttrs a := by
  funext k
  unfold convertAttrs
  rw [Option.map_map]
  cases a k with
  | none => rfl
  | some x => simp [Function.comp, convertVal_idem]

theorem nodeAttr_convert {V : Type} (G : Graph V) (v : V) (k : String) :
    nodeAttr (convert_timestamps_to_strings G) v k =
      (nodeAttr G v k).map convertVal := by
  unfold nodeAttr convert_timestamps_to_strings
  dsimp only
  cases G.nodes v with
  | none => rfl
  | some a => rfl

theorem getEdge_convert {V : Type} [DecidableEq V] (G : Graph V) (u v : V) :
    getEdge (convert_timestamps_to_strings G) u v =
      (getEdge G u v).map fun e => (e.1, e.2.1, convertAttrs e.2.2) := by
  unfold getEdge convert_timestamps_to_strings
  exact List.find?_map _ G.edges

theorem edgeAttr_convert {V : Type} [DecidableEq V] (G : Graph V) (u v : V)
    (k : String) :
    edgeAttr (convert_timestamps_to_strings G) u v k =
      (edgeAttr G u v k).map convertVal := by
  unfold edgeAttr
  rw [getEdge_convert]
  cases getEdge G u v with
  | none => rfl
  | some e => rfl

/-- Claim C8: convert_timestamps_to_strings turns every node- and
edge-attribute value that is a timestamp into its zero-padded
"%Y-%m-%d %H:%M:%S" string, leaves every non-timestamp value unchanged, and
is idempotent: a second application changes nothing. -/
theorem claim_C8_timestamp_normalization {V : Type} [DecidableEq V]
    (G : Graph V) (v : V) (k : String) (t : Timestamp) (x : Val)
    (u w : V) :
    (nodeAttr G v k = some (Val.vTime t) →
      nodeAttr (convert_timestamps_to_strings G) v k =
        some (Val.vStr (strftimeYmdHMS t))) ∧
    (nodeAttr G v k = some x → (∀ s, x ≠ Val.vTime s) →
      nodeAttr (convert_timestamps_to_strings G) v k = some x) ∧
    (edgeAttr G u w k = some (Val.vTime t) →
      edgeAttr (convert_timestamps_to_strings G) u w k =
        some (Val.vStr (strftimeYmdHMS t))) ∧
    (edgeAttr G u w k = some x → (∀ s, x ≠ Val.vTime s) →
      edgeAttr (convert_timestamps_to_strings G) u w k = some x) ∧
    (convert_timestamps_to_strings (convert_timestamps_to_strings G) =
      convert_timestamps_to_strings G) := by
  refine ⟨?_, ?_, ?_, ?_, ?_⟩
  · intro h
    rw [nodeAttr_convert, h]
    rfl
  · intro h hx
    rw [nodeAttr_convert, h]
    simp [convertVal_of_not_time x hx]
  · intro h
    rw [edgeAttr_convert, h]
    rfl
  · intro h hx
    rw [edgeAttr_convert, h]
    simp [convertVal_of_not_time x hx]
  · unfold convert_timestamps_to_strings
    congr 1
    · funext v0
      rw [Option.map_map]
      cases G.nodes v0 with
      | none => rfl
      | some a => simp [Function.comp, convertAttrs_idem]
    · rw [List.map_map]
      apply List.map_congr_left
      intro e _
      simp [Function.comp, convertAttrs_idem]

/-- Instance of claim C8: a CreationDate timestamp attribute becomes its
formatted string, and a second pass changes nothing. -/
theorem claim_C8_timestamp_normalization_witness :
    nodeAttr
      (addNode (freshGraph Int) 1
        (fun k0 => if k0 = "CreationDate"
          then some (Val.vTime ⟨2020, 1, 2, 3, 4, 5⟩) else none))
      1 "CreationDate" = some (Val.vTime ⟨2020, 1, 2, 3, 4, 5⟩) ∧
    nodeAttr
      (convert_timestamps_to_strings
        (addNode (freshGraph Int) 1
          (fun k0 => if k0 = "CreationDate"
            then some (Val.vTime ⟨2020, 1, 2, 3, 4, 5⟩) else none)))
      1 "CreationDate" =
        some (Val.vStr (strftimeYmdHMS ⟨2020, 1, 2, 3, 4, 5⟩)) := by
  constructor
  · rfl
  · exact (claim_C8_timestamp_normalization
      (addNode (freshGraph Int) 1
        (fun k0 => if k0 = "CreationDate"
          then some (Val.vTime ⟨2020, 1, 2, 3, 4, 5⟩) else none))
      1 "CreationDate" ⟨2020, 1, 2, 3, 4, 5⟩ Val.vNan 1 1).1 rfl
